import Mathlib

/-
  Verification development for the chess-rs server.

  The server core (src/server/src/main.rs, src/server/src/chess_game.rs) and
  the wire codec (src/common/src/lib.rs) are embedded shallowly:

  * The external chess rule engine (the `chess` crate) is treated as an
    opaque collaborator, abstracted as an `Engine` record of the operations
    the server calls (`ChessMove::from_str`, `Board::legal`,
    `Board::make_move_new`, `board.checkers().popcnt()`,
    `MoveGen::new_legal(..).count()`, `board.to_string()`, `Board::default()`).
  * The registry `HashMap`s are embedded as association lists; `insert`
    overwrites, `remove` deletes, in-place mutation of a game behind its
    `Arc<Mutex<..>>` is an order-preserving update of the entry.
  * Outbound channel sends are recorded as a list of (channel, message)
    pairs; channels are identified by numbers.  A `send` on a live channel
    succeeds, which is the steady-state behaviour of the bounded mpsc
    channels in the source.
  * The user file is a string; `tokio::fs` reads and appends are reads and
    appends of that string.
-/

namespace ChessRS

/-! # Data model (src/common/src/lib.rs, src/server/src/chess_game.rs) -/

/-- The `Color` type of the `chess` crate. -/
inductive Color where
  | White
  | Black
deriving DecidableEq, Repr

/-- Rust `!color` (the `Not` impl of `chess::Color`). -/
def Color.flip : Color → Color
  | .White => .Black
  | .Black => .White

/-- The `GameResult` type of the `chess` crate. -/
inductive GameResult where
  | WhiteCheckmates
  | WhiteResigns
  | BlackCheckmates
  | BlackResigns
  | Stalemate
  | DrawAccepted
  | DrawDeclared
deriving DecidableEq, Repr

/-- Rust `{:?}` rendering of a `GameResult`. -/
def GameResult.debugStr : GameResult → String
  | .WhiteCheckmates => "WhiteCheckmates"
  | .WhiteResigns => "WhiteResigns"
  | .BlackCheckmates => "BlackCheckmates"
  | .BlackResigns => "BlackResigns"
  | .Stalemate => "Stalemate"
  | .DrawAccepted => "DrawAccepted"
  | .DrawDeclared => "DrawDeclared"

/-- Rust `{:?}` rendering of an `Option<GameResult>`. -/
def optResultDebugStr : Option GameResult → String
  | none => "None"
  | some r => "Some(" ++ r.debugStr ++ ")"

/-- `GameStatus` from src/server/src/chess_game.rs. -/
inductive GameStatus where
  | Pending
  | InProgress
  | Finished
  | Cancelled
deriving DecidableEq, Repr

/-- `Command` from src/common/src/lib.rs. -/
inductive Command where
  | LogIn (username : String)
  | Play
  | Concede
  | Stats
deriving DecidableEq, Repr

/-- `Message` from src/common/src/lib.rs. -/
inductive Message where
  | Command (c : Command)
  | Move (s : String)
  | Text (s : String)
  | Board (s : String)
  | Error (s : String)
  | Log (s : String)
deriving DecidableEq, Repr

/-- `ChessError` from src/common/src/lib.rs (the `io::Error` payload of
`IoError` is reduced to its context string). -/
inductive ChessError where
  | IoError (context : String)
  | NetworkError (s : String)
  | SerializationError (s : String)
  | DeserializationError (s : String)
  | MessageHandlingError (s : String)
  | AuthenticationError (s : String)
  | DatabaseError (s : String)
  | GameStateError (s : String)
  | UserStateError (s : String)
  | UserNotFoundError
  | SenderNotFoundError (s : String)
  | Unknown
deriving DecidableEq, Repr

/-- The opaque chess rule engine: the operations of the `chess` crate that
the server calls, abstracted over the board and move representation. -/
structure Engine (Board Move : Type) where
  parseMove : String → Option Move
  legal : Board → Move → Bool
  makeMoveNew : Board → Move → Board
  checkersPopcnt : Board → Nat
  legalMovesCount : Board → Nat
  serializeBoard : Board → String
  defaultBoard : Board

/-- `Game` from src/server/src/chess_game.rs. -/
structure Game (Board : Type) where
  board : Board
  current_turn : Color
  white : Option String
  black : Option String
  status : GameStatus
  result : Option GameResult

variable {Board Move : Type}

/-- `Game::make_move` from src/server/src/chess_game.rs. -/
def Game.make_move (E : Engine Board Move) (g : Game Board) (move_str : String) :
    Except ChessError (Game Board) :=
  match E.parseMove move_str with
  | some mov =>
    if E.legal g.board mov then
      .ok { g with board := E.makeMoveNew g.board mov,
                   current_turn := g.current_turn.flip }
    else
      .error (.GameStateError "Invalid move.")
  | none => .error (.GameStateError "Couldn\x27t parse move.")

/-- `Game::concede` from src/server/src/chess_game.rs. -/
def Game.concede (g : Game Board) (player : String) : Except ChessError (Game Board) :=
  if g.white = some player then
    .ok { g with result := some .WhiteResigns, status := .Finished }
  else if g.black = some player then
    .ok { g with result := some .BlackResigns, status := .Finished }
  else
    .error .UserNotFoundError

/-- `Game::is_check` from src/server/src/chess_game.rs. -/
def Game.is_check (E : Engine Board Move) (g : Game Board) : Bool :=
  E.checkersPopcnt g.board > 0

/-- `Game::is_mate` from src/server/src/chess_game.rs.  It mutates the game
(`result`, `status`) when there is no legal move, so it returns the flag
together with the updated game. -/
def Game.is_mate (E : Engine Board Move) (g : Game Board) : Bool × Game Board :=
  if E.legalMovesCount g.board = 0 then
    (true,
     { g with
        result := some (if g.current_turn = Color.White then .BlackCheckmates
                        else .WhiteCheckmates),
        status := .Finished })
  else
    (false, g)

/-! # Association-list model of the registry `HashMap`s -/

/-- Socket addresses, identified by numbers. -/
abbrev Addr := Nat

/-- Outbound mpsc channels, identified by numbers. -/
abbrev Chan := Nat

/-- `HashMap::remove`. -/
def eraseA [DecidableEq K] (k : K) : List (K × V) → List (K × V)
  | [] => []
  | p :: ps => if p.1 = k then eraseA k ps else p :: eraseA k ps

/-- `HashMap::insert` (overwrites any previous binding). -/
def insertA [DecidableEq K] (k : K) (v : V) (l : List (K × V)) : List (K × V) :=
  (k, v) :: eraseA k l

/-- In-place mutation of the value stored under an existing key (mutation of
a game through its `Arc<Mutex<..>>` does not restructure the map). -/
def updateA [DecidableEq K] (k : K) (v : V) (l : List (K × V)) : List (K × V) :=
  l.map (fun p => if p.1 = k then (k, v) else p)

/-- `HashMap::get`. -/
def findA [DecidableEq K] (k : K) : List (K × V) → Option V
  | [] => none
  | p :: ps => if p.1 = k then some p.2 else findA k ps

/-! # User store (authenticate / register, src/server/src/main.rs) -/

/-- One step of splitting a character list at `'\n'` (the separators are not
kept; there is always at least one, possibly empty, segment). -/
def splitNL : List Char → List (List Char)
  | [] => [[]]
  | c :: cs =>
    if c = '\n' then [] :: splitNL cs
    else
      match splitNL cs with
      | [] => [[c]]
      | l :: ls => (c :: l) :: ls

/-- Strip one trailing `'\r'`, as Rust's `str::lines` does on every line
that was terminated by `'\n'`. -/
def stripCR (l : List Char) : List Char :=
  if l.getLast? = some '\r' then l.dropLast else l

/-- Rust `str::lines` on a character list: split at `'\n'`, strip one
trailing `'\r'` from every segment that was terminated by `'\n'`, and drop
the final segment when it is empty (the final line ending is optional and a
trailing terminator produces no extra line). -/
def rustLines (s : List Char) : List (List Char) :=
  let parts := splitNL s
  parts.dropLast.map stripCR ++
    (match parts.getLast? with
     | some [] => []
     | some l => [l]
     | none => [])

/-- `authenticate` from src/server/src/main.rs: read the user file and
report whether any line equals the username. -/
def authenticate (username : String) (file : String) : Bool :=
  (rustLines file.data).any (fun line => line = username.data)

/-- `register` from src/server/src/main.rs: append the username followed by
`"\n"` to the user file (opened in append mode). -/
def register (username : String) (file : String) : String :=
  file ++ username ++ "\n"

/-! # Server state (src/server/src/main.rs) -/

/-- `ServerState` from src/server/src/main.rs, together with the contents of
`database/usernames.txt` that `authenticate` and `register` access. -/
structure ServerState (Board : Type) where
  user_connections : List (String × Chan)
  anon_user_connections : List (Addr × Chan)
  addr_to_user : List (Addr × String)
  games : List (Nat × Game Board)
  finished_games : List (Nat × Game Board)
  user_to_game : List (String × Nat)
  user_file : String
  last_game_id : Nat

/-- `ServerState::get_new_game_id`: `fetch_add(1)` on an `AtomicU32`
returns the previous value and wraps. -/
def ServerState.get_new_game_id (st : ServerState Board) : Nat × ServerState Board :=
  (st.last_game_id, { st with last_game_id := (st.last_game_id + 1) % 2 ^ 32 })

/-- The outcome of dispatching one message: `Ok`, `Err(e)`, or a Rust
`panic!` / `unimplemented!` (which aborts the handling task). -/
inductive PStatus where
  | ok
  | err (e : ChessError)
  | panicked (s : String)
deriving DecidableEq, Repr

/-- The channel sends performed while dispatching: (channel, message). -/
abbrev Sends := List (Chan × Message)

/-- `identify_user_by_addr` from src/server/src/main.rs. -/
def identify_user_by_addr (addr : Addr) (st : ServerState Board) : Option String :=
  findA addr st.addr_to_user

/-- `identify_game` from src/server/src/main.rs (returns the game id along
with the game, standing for the `Arc` handle). -/
def identify_game (username : String) (st : ServerState Board) :
    Except ChessError (Nat × Game Board) :=
  match findA username st.user_to_game with
  | some game_id =>
    match findA game_id st.games with
    | some g => .ok (game_id, g)
    | none => .error (.GameStateError "Game not found for user")
  | none => .error (.GameStateError "User not in game")

/-- `identify_opponent` from src/server/src/main.rs. -/
def identify_opponent (username : String) (st : ServerState Board) :
    Except ChessError (Option String) :=
  match findA username st.user_to_game with
  | some game_id =>
    match findA game_id st.games with
    | some g =>
      .ok (if g.black = some username then g.white else g.black)
    | none => .error (.GameStateError "Game not found for user")
  | none => .error (.GameStateError "User not in game")

/-- Look up the channel of a user in `user_connections` and send one message
through it (the send is skipped when the user has no channel), as the
`if let Some(sender) = user_connections.get(..)` blocks do. -/
def sendToUser (st : ServerState Board) (username : String) (m : Message) : Sends :=
  match findA username st.user_connections with
  | some ch => [(ch, m)]
  | none => []

/-- `if let Some(player) = .. { user_to_game.remove(player) }`. -/
def removeOptUser (p : Option String) (l : List (String × Nat)) : List (String × Nat) :=
  match p with
  | some u => eraseA u l
  | none => l

/-! # Broadcasting game state (src/server/src/main.rs, `send_game_state`) -/

/-- `send_game_state` from src/server/src/main.rs.  The game is passed by
`&mut` in the source and `is_mate` may mutate it, so the (possibly updated)
game is returned along with the sends and the result. -/
def send_game_state (E : Engine Board Move) (g : Game Board) (st : ServerState Board) :
    Game Board × Sends × Except ChessError Unit :=
  match g.white, g.black with
  | none, _ => (g, [], .error (.GameStateError "White player missing"))
  | some _, none => (g, [], .error (.GameStateError "Black player missing"))
  | some white_player, some black_player =>
    match findA white_player st.user_connections, findA black_player st.user_connections with
    | none, _ => (g, [], .error .UserNotFoundError)
    | some _, none => (g, [], .error .UserNotFoundError)
    | some white_sender, some black_sender =>
      let board_state := E.serializeBoard g.board
      let msgs0 : Sends :=
        [(white_sender, .Board board_state), (black_sender, .Board board_state)]
      let msgs1 := msgs0 ++
        (if g.current_turn = Color.White then
          [(white_sender, .Log ("Your turn, white player " ++ white_player ++ "!"))]
        else
          [(black_sender, .Log ("Your turn, black player " ++ black_player ++ "!"))])
      if g.result = none then
        if Game.is_check E g then
          (g, msgs1 ++ [(white_sender, .Log "Check!"), (black_sender, .Log "Check!")], .ok ())
        else
          (g, msgs1, .ok ())
      else
        let mg := Game.is_mate E g
        let msgs2 := if mg.1 then
            msgs1 ++ [(white_sender, .Log "Mate!"), (black_sender, .Log "Mate!")]
          else msgs1
        let fin := "Game is finished. Result is: " ++ optResultDebugStr mg.2.result
        (mg.2, msgs2 ++ [(white_sender, .Log fin), (black_sender, .Log fin)], .ok ())

/-! # Move processing (src/server/src/main.rs, `process_move`) -/

/-- `process_move` from src/server/src/main.rs. -/
def process_move (E : Engine Board Move) (user_move : String) (username : String)
    (st : ServerState Board) : ServerState Board × Sends × Except ChessError Unit :=
  match findA username st.user_to_game with
  | none =>
    (st, [], .error (.GameStateError ("User " ++ username ++ " is not currently in a game")))
  | some game_id =>
    match findA game_id st.games with
    | none =>
      (st, sendToUser st username (.Error "You are not in a game. Start a game using /play."),
       .error (.GameStateError "Game not found"))
    | some g =>
      if g.white = none ∨ g.black = none then
        (st,
         sendToUser st username
           (.Error "The game has not started yet. We are waiting for a second player to join."),
         .error (.GameStateError
           "The game has not started yet. We are waiting for a second player to join."))
      else if ¬ ((g.current_turn = Color.Black ∧ g.black = some username) ∨
                 (g.current_turn = Color.White ∧ g.white = some username)) then
        (st, sendToUser st username (.Error "It\x27s not your turn."),
         .error (.GameStateError "It\x27s not your turn."))
      else
        match g.make_move E user_move with
        | .error e => (st, [], .error e)
        | .ok g1 =>
          let game_is_finished := g1.result.isSome
          let st1 := { st with games := updateA game_id g1 st.games }
          if game_is_finished then
            let st2 := { st1 with
              games := eraseA game_id st1.games,
              finished_games := insertA game_id g1 st1.finished_games,
              user_to_game := removeOptUser g1.black (removeOptUser g1.white st1.user_to_game) }
            (st2, [], .ok ())
          else
            (st1, [], .ok ())

/-! # Matchmaking (src/server/src/main.rs, `assign_to_game` / `start_game`) -/

/-- `start_game` from src/server/src/main.rs. -/
def start_game (E : Engine Board Move) (g : Game Board) (st : ServerState Board) :
    Game Board × Sends × Except ChessError Unit :=
  match g.white, g.black with
  | none, _ => (g, [], .error (.GameStateError "White player missing"))
  | some _, none => (g, [], .error (.GameStateError "Black player missing"))
  | some _, some _ =>
    send_game_state E { g with status := GameStatus.InProgress } st

/-- The scan of `games` in `assign_to_game`: the first game with an open
white seat (flag `false`) or, failing that within the same entry, an open
black seat (flag `true`). -/
def find_open_seat : List (Nat × Game Board) → Option (Nat × Game Board × Bool)
  | [] => none
  | (game_id, g) :: rest =>
    if g.white = none then some (game_id, g, false)
    else if g.black = none then some (game_id, g, true)
    else find_open_seat rest

/-- Lines 596-602 of src/server/src/main.rs: tell the user they are in a
game, or fail with `UserNotFoundError` when they have no channel. -/
def informAssigned (username : String) (st : ServerState Board) :
    ServerState Board × Sends × PStatus :=
  match findA username st.user_connections with
  | some ch => (st, [(ch, .Log "You\x27re in a game now!")], .ok)
  | none => (st, [], .err .UserNotFoundError)

/-- `assign_to_game` from src/server/src/main.rs. -/
def assign_to_game (E : Engine Board Move) (username : String) (st : ServerState Board) :
    ServerState Board × Sends × PStatus :=
  match find_open_seat st.games with
  | some (game_id, g, false) =>
    let g1 := { g with white := some username }
    let st1 := { st with games := updateA game_id g1 st.games }
    let st2 := { st1 with user_to_game := insertA username game_id st1.user_to_game }
    informAssigned username st2
  | some (game_id, g, true) =>
    let g1 := { g with black := some username }
    let st1 := { st with games := updateA game_id g1 st.games }
    let sg := start_game E g1 st1
    let st2 := { st1 with games := updateA game_id sg.1 st1.games }
    match sg.2.2 with
    | .error e => (st2, sg.2.1, .err e)
    | .ok _ =>
      let st3 := { st2 with user_to_game := insertA username game_id st2.user_to_game }
      let ia := informAssigned username st3
      (ia.1, sg.2.1 ++ ia.2.1, ia.2.2)
  | none =>
    let idst := st.get_new_game_id
    let new_game : Game Board :=
      { board := E.defaultBoard, current_turn := .White, white := some username,
        black := none, status := .Pending, result := none }
    let st2 := { idst.2 with games := insertA idst.1 new_game idst.2.games }
    let st3 := { st2 with user_to_game := insertA username idst.1 st2.user_to_game }
    informAssigned username st3

/-! # Command dispatch (src/server/src/main.rs, `process_command`) -/

/-- `process_command` from src/server/src/main.rs.  `Stats` hits
`unimplemented!`, which is a panic. -/
def process_command (E : Engine Board Move) (cmd : Command) (addr : Addr)
    (st : ServerState Board) : ServerState Board × Sends × PStatus :=
  match cmd with
  | .LogIn username =>
    if authenticate username st.user_file then
      let sender := findA addr st.anon_user_connections
      let st1 := { st with anon_user_connections := eraseA addr st.anon_user_connections }
      match sender with
      | some ch =>
        let st2 := { st1 with
          user_connections := insertA username ch st1.user_connections,
          addr_to_user := insertA addr username st1.addr_to_user }
        (st2, [(ch, .Log ("Authenticated successfully. Welcome back, " ++ username ++ "."))],
         .ok)
      | none =>
        (st1, [],
         .err (.SenderNotFoundError ("Sender not found for socket address: " ++ toString addr)))
    else
      let st0 := { st with user_file := register username st.user_file }
      let sender := findA addr st0.anon_user_connections
      let st1 := { st0 with anon_user_connections := eraseA addr st0.anon_user_connections }
      match sender with
      | some ch =>
        let st2 := { st1 with
          user_connections := insertA username ch st1.user_connections,
          addr_to_user := insertA addr username st1.addr_to_user }
        (st2,
         [(ch, .Log ("Registered a new user. Welcome, " ++ username ++
            "! Hope you are going to enjoy our chess server. Use /play to start your first game!"))],
         .ok)
      | none =>
        (st1, [],
         .err (.SenderNotFoundError
           ("Tried registering. Sender not found for socket address: " ++ toString addr)))
  | .Play =>
    match identify_user_by_addr addr st with
    | some username =>
      if (findA username st.user_to_game).isSome then
        (st,
         sendToUser st username (.Error "You cannot start a new game until this one is finished!"),
         .err (.UserStateError "User already in a game."))
      else
        assign_to_game E username st
    | none =>
      let sender := findA addr st.anon_user_connections
      let st1 := { st with anon_user_connections := eraseA addr st.anon_user_connections }
      let msgs : Sends :=
        match sender with
        | some ch => [(ch, .Error "Anonymous users cannot start games. Please use /log in.")]
        | none => []
      (st1, msgs,
       .err (.UserStateError
         "Failed to get username from the server state (unregistered player tried to play)."))
  | .Concede =>
    match identify_user_by_addr addr st with
    | none => (st, [], .err .UserNotFoundError)
    | some username =>
      match identify_game username st with
      | .error e => (st, [], .err e)
      | .ok gg =>
        let game_id := gg.1
        let g1 := match gg.2.concede username with
          | .ok g2 => g2
          | .error _ => gg.2
        let st1 := { st with
          games := updateA game_id g1 st.games,
          user_to_game := removeOptUser g1.black (removeOptUser g1.white st.user_to_game) }
        let sg := send_game_state E g1 st1
        let st2 := { st1 with games := updateA game_id sg.1 st1.games }
        match sg.2.2 with
        | .ok _ => (st2, sg.2.1, .ok)
        | .error e => (st2, sg.2.1, .err e)
  | .Stats => (st, [], .panicked "TODO stats")

/-! # Message dispatch (src/server/src/main.rs, `process_message`) -/

/-- `process_message` from src/server/src/main.rs.  The `Board`, `Error`
and `Log` arms are `panic!` in the source. -/
def process_message (E : Engine Board Move) (message : Message) (addr : Addr)
    (st : ServerState Board) : ServerState Board × Sends × PStatus :=
  match message with
  | .Command c => process_command E c addr st
  | .Move player_move =>
    match identify_user_by_addr addr st with
    | none => (st, [], .err .UserNotFoundError)
    | some username =>
      let pm := process_move E player_move username st
      match pm.2.2 with
      | .error e => (pm.1, pm.2.1, .err e)
      | .ok _ =>
        match identify_game username pm.1 with
        | .error e => (pm.1, pm.2.1, .err e)
        | .ok gg =>
          let sg := send_game_state E gg.2 pm.1
          let st2 := { pm.1 with games := updateA gg.1 sg.1 pm.1.games }
          match sg.2.2 with
          | .ok _ => (st2, pm.2.1 ++ sg.2.1, .ok)
          | .error e => (st2, pm.2.1 ++ sg.2.1, .err e)
  | .Text text =>
    match identify_user_by_addr addr st with
    | none => (st, [], .err (.UserStateError "User not found"))
    | some username =>
      match identify_opponent username st with
      | .error e => (st, [], .err e)
      | .ok none => (st, [], .ok)
      | .ok (some opponent) => (st, sendToUser st opponent (.Text text), .ok)
  | .Board _ => (st, [], .panicked "Expected Command, Move or Text, received Board")
  | .Error _ => (st, [], .panicked "Expected Command, Move or Text, received Error")
  | .Log _ => (st, [], .panicked "Expected Command, Move or Text, received Log")

/-! # Connection-handler cleanup (src/server/src/main.rs, `handle_client`) -/

/-- Lines 180-199 of src/server/src/main.rs: the cleanup run after the
reader and writer tasks of a connection end. -/
def handle_client_cleanup (addr : Addr) (st : ServerState Board) :
    ServerState Board × Sends :=
  let msgs1 : Sends :=
    match findA addr st.anon_user_connections with
    | some ch => [(ch, .Log "You have been disconnected. Bye!")]
    | none => []
  let st1 := { st with anon_user_connections := eraseA addr st.anon_user_connections }
  match identify_user_by_addr addr st1 with
  | some username =>
    let msgs2 : Sends :=
      match findA username st1.user_connections with
      | some ch => [(ch, .Log "You have been disconnected. Bye!")]
      | none => []
    ({ st1 with user_connections := eraseA username st1.user_connections }, msgs1 ++ msgs2)
  | none => (st1, msgs1)

/-! # Wire codec (src/common/src/lib.rs, `listen_to_messages`) -/

/-- The outcome of `listen_to_messages`: a decoded message together with
the unconsumed remainder of the stream, a failure to read the 4-byte
length prefix (end of stream), or the `Message length too large` error. -/
inductive ListenResult where
  | msg (m : Message) (rest : List Nat)
  | lenReadError
  | tooLarge (len : Nat)
deriving DecidableEq, Repr

/-- `u32::from_be_bytes` on the first four bytes of the stream. -/
def be32 : List Nat → Nat
  | a :: b :: c :: d :: _ => ((a * 256 + b) * 256 + c) * 256 + d
  | _ => 0

/-- The 10 MiB frame limit of `listen_to_messages`. -/
def FRAME_LIMIT : Nat := 10 * 1024 * 1024

/-- `listen_to_messages` from src/common/src/lib.rs, over a byte stream
(the bytes available until EOF) with CBOR decoding abstracted as `decode`.
A short payload read consumes the remaining stream and the loop then fails
on the next length read; a decode failure is logged and the loop continues
with the next frame. -/
def listen_to_messages (decode : List Nat → Option Message) (stream : List Nat) :
    ListenResult :=
  if _h4 : stream.length < 4 then .lenReadError
  else
    if FRAME_LIMIT < be32 stream then .tooLarge (be32 stream)
    else
      if _hr : (stream.drop 4).length < be32 stream then
        listen_to_messages decode []
      else
        match decode ((stream.drop 4).take (be32 stream)) with
        | some m => .msg m ((stream.drop 4).drop (be32 stream))
        | none => listen_to_messages decode ((stream.drop 4).drop (be32 stream))
termination_by stream.length
decreasing_by
· simp only [List.length_nil]; omega
· simp only [List.length_drop]; omega

/-! # Association-list lemmas -/

theorem findA_eraseA_self [DecidableEq K] (k : K) (l : List (K × V)) :
    findA k (eraseA k l) = none := by
  induction l with
  | nil => rfl
  | cons p ps ih =>
    by_cases h : p.1 = k <;> simp [eraseA, findA, h, ih]

theorem findA_eraseA_of_ne [DecidableEq K] {k j : K} (h : k ≠ j) (l : List (K × V)) :
    findA k (eraseA j l) = findA k l := by
  induction l with
  | nil => rfl
  | cons p ps ih =>
    by_cases hj : p.1 = j
    · have hk : p.1 ≠ k := fun hkk => h (hkk ▸ hj)
      simp [eraseA, findA, hj, hk, ih, Ne.symm h]
    · by_cases hk : p.1 = k <;> simp [eraseA, findA, hj, hk, ih, h]

theorem findA_updateA_of_found [DecidableEq K] {k : K} {v w : V} {l : List (K × V)}
    (h : findA k l = some w) : findA k (updateA k v l) = some v := by
  induction l with
  | nil => simp [findA] at h
  | cons p ps ih =>
    by_cases hk : p.1 = k
    · simp [updateA, findA, hk]
    · simp [findA, hk] at h
      simp [updateA, findA, hk]
      exact ih h

/-! # Test fixtures: a concrete engine and server states -/

/-- A concrete instance of the opaque rule engine for concrete runs: board
`0` is a position where the side to move has the single parseable, legal
move `d8h4`, board `1` is the position after it, in which the new side to
move is in check and has no legal move (a checkmate, as at the end of the
Fools Mate sequence). -/
def foolsEngine : Engine Nat Nat where
  parseMove := fun s => if s = "d8h4" then some 0 else none
  legal := fun b m => b == 0 && m == 0
  makeMoveNew := fun _ _ => 1
  checkersPopcnt := fun b => if b = 1 then 1 else 0
  legalMovesCount := fun b => if b = 1 then 0 else 20
  serializeBoard := fun b => "pos" ++ toString b
  defaultBoard := 0

/-- An in-progress game between alice (white) and bob (black), black to
move, at board `0`. -/
def gameBase : Game Nat where
  board := 0
  current_turn := .Black
  white := some "alice"
  black := some "bob"
  status := .InProgress
  result := none

/-- Server state: alice (address 1, channel 10) and bob (address 2,
channel 11) are logged in and seated in game 0 (`gameBase`). -/
def stBase : ServerState Nat where
  user_connections := [("alice", 10), ("bob", 11)]
  anon_user_connections := []
  addr_to_user := [(1, "alice"), (2, "bob")]
  games := [(0, gameBase)]
  finished_games := []
  user_to_game := [("alice", 0), ("bob", 0)]
  user_file := "alice\nbob\n"
  last_game_id := 1

/-! # Claims -/

/-- Claim C1.  The spec says that after a successful move that leaves the
new side to move with no legal moves, the result is set to the
corresponding WinsMate value (or Draw for stalemate) and the status to
Finished.  The code never does this: `Game::make_move` does not set
`result`, `process_move` moves the game to the finished map only when
`result` is already set, and `send_game_state` calls `is_mate` only when
`result` is already `Some`.  Evaluating the full dispatch at a concrete
mating move (black mates; the new side to move, white, is in check with no
legal moves): the stored game still has `result = none` and status
`InProgress`, stays in the active games map, and both players stay in
`user_to_game`. -/
theorem mate_not_recorded_after_mating_move :
    foolsEngine.legalMovesCount (foolsEngine.makeMoveNew gameBase.board 0) = 0 ∧
    foolsEngine.checkersPopcnt (foolsEngine.makeMoveNew gameBase.board 0) = 1 ∧
    findA 0 (process_message foolsEngine (.Move "d8h4") (2 : Addr) stBase).1.games =
      some { board := 1, current_turn := .White, white := some "alice",
             black := some "bob", status := .InProgress, result := none } ∧
    findA 0 (process_message foolsEngine (.Move "d8h4") (2 : Addr) stBase).1.finished_games
      = none ∧
    findA "bob" (process_message foolsEngine (.Move "d8h4") (2 : Addr) stBase).1.user_to_game
      = some 0 ∧
    (process_message foolsEngine (.Move "d8h4") (2 : Addr) stBase).2.2 = .ok :=
  ⟨rfl, rfl, rfl, rfl, rfl, rfl⟩

/-- Claim C2: when a seated player of an in-progress game submits a move
while the colour of their seat is not the side to move, the server sends
the channel of that player exactly one message, the not-your-turn `Error`,
and the entire server state (hence the board of the game, side to move, status and
result) is unchanged. -/
theorem move_out_of_turn_rejected {Board Move : Type} (E : Engine Board Move)
    (mv : String) (addr : Addr) (st : ServerState Board) (u w b : String)
    (gid : Nat) (g : Game Board) (ch : Chan)
    (hu : identify_user_by_addr addr st = some u)
    (hgid : findA u st.user_to_game = some gid)
    (hgame : findA gid st.games = some g)
    (_hstatus : g.status = .InProgress)
    (hw : g.white = some w) (hb : g.black = some b)
    (hseat : (u = w ∧ g.current_turn = .Black ∧ b ≠ u) ∨
             (u = b ∧ g.current_turn = .White ∧ w ≠ u))
    (hch : findA u st.user_connections = some ch) :
    process_message E (.Move mv) addr st =
      (st, [(ch, .Error "It\x27s not your turn.")],
       .err (.GameStateError "It\x27s not your turn.")) := by
  have hcond1 : ¬ (g.white = none ∨ g.black = none) := by simp [hw, hb]
  have hcond2 : ¬ ((g.current_turn = Color.Black ∧ g.black = some u) ∨
                   (g.current_turn = Color.White ∧ g.white = some u)) := by
    rcases hseat with ⟨_, h2, h3⟩ | ⟨_, h2, h3⟩
    · rintro (⟨_, hbu⟩ | ⟨ht, _⟩)
      · rw [hb] at hbu; injection hbu with hbu; exact h3 hbu
      · rw [h2] at ht; exact Color.noConfusion ht
    · rintro (⟨ht, _⟩ | ⟨_, hwu⟩)
      · rw [h2] at ht; exact Color.noConfusion ht
      · rw [hw] at hwu; injection hwu with hwu; exact h3 hwu
  have hpm : process_move E mv u st =
      (st, [(ch, .Error "It\x27s not your turn.")],
       .error (.GameStateError "It\x27s not your turn.")) := by
    unfold process_move
    simp only [hgid, hgame]
    rw [if_neg hcond1, if_pos hcond2]
    simp [sendToUser, hch]
  unfold process_message
  simp only [hu, hpm]

/-- Claim C2 witness: alice (white) moves while it is the turn of black. -/
theorem move_out_of_turn_rejected_witness :
    process_message foolsEngine (.Move "e7e5") (1 : Addr) stBase =
      (stBase, [((10 : Chan), .Error "It\x27s not your turn.")],
       .err (.GameStateError "It\x27s not your turn.")) :=
  move_out_of_turn_rejected foolsEngine "e7e5" 1 stBase "alice" "alice" "bob" 0 gameBase 10
    rfl rfl rfl rfl rfl rfl (Or.inl ⟨rfl, rfl, by decide⟩) rfl

/-- Claim C3 counterexample.  bob, whose turn it is, submits the unparsable
move "zzzz": the claim requires an `Error` reply to the mover, but the
sends list is empty — `process_move` propagates the error with `?` without
sending anything, and the caller only logs it. -/
theorem illegal_move_no_reply_counterexample :
    (process_message foolsEngine (.Move "zzzz") (2 : Addr) stBase).2.1 = ([] : Sends) ∧
    (process_message foolsEngine (.Move "zzzz") (2 : Addr) stBase).2.2 =
      .err (.GameStateError "Couldn\x27t parse move.") :=
  ⟨rfl, rfl⟩

/-- Claim C3 amended: when the seated player whose turn it is submits a
move that fails to parse or is illegal (`Game::make_move` returns an
error), the server state is unchanged and the error is returned to the
caller (which logs it); no message at all is sent to the mover. -/
theorem move_error_no_reply {Board Move : Type} (E : Engine Board Move)
    (mv : String) (addr : Addr) (st : ServerState Board) (u : String)
    (gid : Nat) (g : Game Board) (e : ChessError)
    (hu : identify_user_by_addr addr st = some u)
    (hgid : findA u st.user_to_game = some gid)
    (hgame : findA gid st.games = some g)
    (hw : g.white ≠ none) (hb : g.black ≠ none)
    (hturn : (g.current_turn = Color.Black ∧ g.black = some u) ∨
             (g.current_turn = Color.White ∧ g.white = some u))
    (hmv : g.make_move E mv = .error e) :
    process_message E (.Move mv) addr st = (st, [], .err e) := by
  have hcond1 : ¬ (g.white = none ∨ g.black = none) := by
    rintro (h | h)
    · exact hw h
    · exact hb h
  have hpm : process_move E mv u st = (st, [], .error e) := by
    unfold process_move
    simp only [hgid, hgame]
    rw [if_neg hcond1, if_neg (not_not_intro hturn)]
    simp [hmv]
  unfold process_message
  simp only [hu, hpm]

/-- Claim C3 amended, witness: bob submits "zzzz" on his turn. -/
theorem move_error_no_reply_witness :
    process_message foolsEngine (.Move "zzzz") (2 : Addr) stBase =
      (stBase, [], .err (.GameStateError "Couldn\x27t parse move.")) :=
  move_error_no_reply foolsEngine "zzzz" 2 stBase "bob" 0 gameBase
    (.GameStateError "Couldn\x27t parse move.")
    rfl rfl rfl (by decide) (by decide) (Or.inl ⟨rfl, rfl⟩) rfl

/-- A Pending game with alice alone in the white seat. -/
def gamePending : Game Nat where
  board := 0
  current_turn := .White
  white := some "alice"
  black := none
  status := .Pending
  result := none

/-- Server state: alice (address 1, channel 10) is logged in and alone in
Pending game 0. -/
def stPending : ServerState Nat where
  user_connections := [("alice", 10)]
  anon_user_connections := []
  addr_to_user := [(1, "alice")]
  games := [(0, gamePending)]
  finished_games := []
  user_to_game := [("alice", 0)]
  user_file := "alice\n"
  last_game_id := 1

/-- Claim C5 counterexample: after the connection-handler cleanup for
the address of alice, that address is still in `addr_to_user`, the name is still
in `user_to_game`, and the Pending game she occupied alone still exists in
`games` — the cleanup removes only the `anon` and `users` entries. -/
theorem cleanup_leaves_entries_counterexample :
    findA (1 : Addr) (handle_client_cleanup (1 : Addr) stPending).1.addr_to_user
      = some "alice" ∧
    findA "alice" (handle_client_cleanup (1 : Addr) stPending).1.user_to_game
      = some (0 : Nat) ∧
    findA (0 : Nat) (handle_client_cleanup (1 : Addr) stPending).1.games = some gamePending :=
  ⟨rfl, rfl, rfl⟩

/-- Claim C5 amended: the cleanup after a disconnect of an authenticated
user removes the address from `anon_user_connections` and the name from
`user_connections`, but leaves `addr_to_user`, `user_to_game` and `games`
(hence any Pending game the user occupied alone) unchanged. -/
theorem cleanup_amended {Board : Type} (addr : Addr) (st : ServerState Board) (u : String)
    (hu : findA addr st.addr_to_user = some u) :
    findA addr (handle_client_cleanup addr st).1.anon_user_connections = none ∧
    findA u (handle_client_cleanup addr st).1.user_connections = none ∧
    (handle_client_cleanup addr st).1.addr_to_user = st.addr_to_user ∧
    (handle_client_cleanup addr st).1.user_to_game = st.user_to_game ∧
    (handle_client_cleanup addr st).1.games = st.games := by
  unfold handle_client_cleanup identify_user_by_addr
  simp only [hu]
  refine ⟨findA_eraseA_self addr _, findA_eraseA_self u _, ?_, ?_, ?_⟩ <;> trivial

/-- Claim C5 amended, witness: alice disconnects from `stPending`. -/
theorem cleanup_amended_witness :
    findA (1 : Addr) (handle_client_cleanup (1 : Addr) stPending).1.anon_user_connections
      = none ∧
    findA "alice" (handle_client_cleanup (1 : Addr) stPending).1.user_connections = none ∧
    (handle_client_cleanup (1 : Addr) stPending).1.addr_to_user = stPending.addr_to_user ∧
    (handle_client_cleanup (1 : Addr) stPending).1.user_to_game = stPending.user_to_game ∧
    (handle_client_cleanup (1 : Addr) stPending).1.games = stPending.games :=
  cleanup_amended 1 stPending "alice" rfl

/-- Claim C7 counterexample: a `Board` message received from a client makes
the dispatcher panic (`panic!` in the source) instead of returning a logged
error, so message processing does crash the reader task of the server. -/
theorem client_board_panics_counterexample :
    process_message foolsEngine (.Board "x") (1 : Addr) stBase =
      (stBase, [], .panicked "Expected Command, Move or Text, received Board") :=
  rfl

/-- Claim C7 amended: on any `Board`, `Error` or `Log` message received
from a client, `process_message` panics (with the corresponding
`Expected Command, Move or Text, received ..` message), aborting the
reader task, with no state change and no sends. -/
theorem client_board_error_log_panic {Board Move : Type} (E : Engine Board Move)
    (s : String) (addr : Addr) (st : ServerState Board) :
    process_message E (.Board s) addr st =
      (st, [], .panicked "Expected Command, Move or Text, received Board") ∧
    process_message E (.Error s) addr st =
      (st, [], .panicked "Expected Command, Move or Text, received Error") ∧
    process_message E (.Log s) addr st =
      (st, [], .panicked "Expected Command, Move or Text, received Log") :=
  ⟨rfl, rfl, rfl⟩

theorem findA_insertA_self [DecidableEq K] (k : K) (v : V) (l : List (K × V)) :
    findA k (insertA k v l) = some v := by
  simp [insertA, findA]

/-- How `send_game_state` behaves on a finished game (`result` set) whose
board still has a legal move: it sends the board to both seats, the
turn log to the side to move, and the finish log to both, mutating
nothing. -/
theorem send_game_state_finished {Board Move : Type} (E : Engine Board Move)
    (g : Game Board) (st : ServerState Board) (w b : String) (cw cb : Chan)
    (r : GameResult)
    (hw : g.white = some w) (hb : g.black = some b)
    (hcw : findA w st.user_connections = some cw)
    (hcb : findA b st.user_connections = some cb)
    (hres : g.result = some r)
    (hnm : E.legalMovesCount g.board ≠ 0) :
    send_game_state E g st =
      (g,
       ([(cw, .Board (E.serializeBoard g.board)), (cb, .Board (E.serializeBoard g.board))] ++
        (if g.current_turn = Color.White then
           [(cw, .Log ("Your turn, white player " ++ w ++ "!"))]
         else [(cb, .Log ("Your turn, black player " ++ b ++ "!"))])) ++
        [(cw, .Log ("Game is finished. Result is: " ++ ("Some(" ++ r.debugStr ++ ")"))),
         (cb, .Log ("Game is finished. Result is: " ++ ("Some(" ++ r.debugStr ++ ")")))],
       .ok ()) := by
  unfold send_game_state
  simp only [hw, hb, hcw, hcb, hres, Game.is_mate, optResultDebugStr, if_neg hnm]
  simp

/-- How `send_game_state` behaves on a finished game (`result` set) whose
board has no legal move left: `is_mate` fires and overwrites the stored
result with the Checkmates value for the side not to move, "Mate!" is sent
to both seats, and the finish log reports the overwritten result. -/
theorem send_game_state_finished_mate {Board Move : Type} (E : Engine Board Move)
    (g : Game Board) (st : ServerState Board) (w b : String) (cw cb : Chan)
    (r : GameResult)
    (hw : g.white = some w) (hb : g.black = some b)
    (hcw : findA w st.user_connections = some cw)
    (hcb : findA b st.user_connections = some cb)
    (hres : g.result = some r)
    (hm : E.legalMovesCount g.board = 0) :
    send_game_state E g st =
      ({ g with
          result := some (if g.current_turn = Color.White then GameResult.BlackCheckmates
                          else GameResult.WhiteCheckmates),
          status := GameStatus.Finished },
       (([(cw, .Board (E.serializeBoard g.board)), (cb, .Board (E.serializeBoard g.board))] ++
         (if g.current_turn = Color.White then
            [(cw, .Log ("Your turn, white player " ++ w ++ "!"))]
          else [(cb, .Log ("Your turn, black player " ++ b ++ "!"))])) ++
        [(cw, .Log "Mate!"), (cb, .Log "Mate!")]) ++
        [(cw, .Log ("Game is finished. Result is: " ++ ("Some(" ++
           (if g.current_turn = Color.White then GameResult.BlackCheckmates
            else GameResult.WhiteCheckmates).debugStr ++ ")"))),
         (cb, .Log ("Game is finished. Result is: " ++ ("Some(" ++
           (if g.current_turn = Color.White then GameResult.BlackCheckmates
            else GameResult.WhiteCheckmates).debugStr ++ ")")))],
       .ok ()) := by
  unfold send_game_state
  simp only [hw, hb, hcw, hcb, hres, Game.is_mate, optResultDebugStr, if_pos hm]
  simp

/-- Claim C4 counterexample: alice concedes from `stBase`.  The result and
status are set and `user_to_game` is emptied, but the game entry is NOT
moved into the finished-games map: it stays in `games` and
`finished_games` remains empty, while the claim requires the entry to be
moved. -/
theorem concede_not_archived_counterexample :
    findA (0 : Nat)
        (process_command foolsEngine Command.Concede (1 : Addr) stBase).1.finished_games
      = none ∧
    findA (0 : Nat) (process_command foolsEngine Command.Concede (1 : Addr) stBase).1.games =
      some { gameBase with result := some GameResult.WhiteResigns,
                           status := GameStatus.Finished } ∧
    (process_command foolsEngine Command.Concede (1 : Addr) stBase).2.2 = PStatus.ok :=
  ⟨rfl, rfl, rfl⟩

/-- Claim C4 amended: after the Concede of a seated caller is processed,
the status of the game is Finished and both seated players are removed
from `user_to_game`, but the game entry stays in the active `games` map
and `finished_games` is unchanged (the entry is never archived).  The
stored result is WhiteResigns or BlackResigns according to the caller seat
(white checked first) when the board still has a legal move; when the
board has no legal move left (a position already mate, reachable because
mate is never detected on the move path), `is_mate` inside the broadcast
overwrites the resignation with BlackCheckmates/WhiteCheckmates for the
side to move. -/
theorem concede_amended {Board Move : Type} (E : Engine Board Move)
    (addr : Addr) (st : ServerState Board) (u w b : String)
    (gid : Nat) (g : Game Board) (cw cb : Chan)
    (hu : identify_user_by_addr addr st = some u)
    (hgid : findA u st.user_to_game = some gid)
    (hgame : findA gid st.games = some g)
    (hw : g.white = some w) (hb : g.black = some b)
    (hseat : u = w ∨ u = b)
    (hcw : findA w st.user_connections = some cw)
    (hcb : findA b st.user_connections = some cb) :
    findA gid (process_command E Command.Concede addr st).1.games =
      some { g with
        result := some (if E.legalMovesCount g.board = 0 then
                          (if g.current_turn = Color.White then GameResult.BlackCheckmates
                           else GameResult.WhiteCheckmates)
                        else if g.white = some u then GameResult.WhiteResigns
                        else GameResult.BlackResigns),
        status := GameStatus.Finished } ∧
    (process_command E Command.Concede addr st).1.finished_games = st.finished_games ∧
    findA w (process_command E Command.Concede addr st).1.user_to_game = none ∧
    findA b (process_command E Command.Concede addr st).1.user_to_game = none ∧
    (process_command E Command.Concede addr st).2.2 = PStatus.ok := by
  have hgident : identify_game u st = .ok (gid, g) := by
    unfold identify_game
    simp only [hgid, hgame]
  have hu2g : ∀ l : List (String × Nat),
      findA w (eraseA b (eraseA w l)) = none ∧ findA b (eraseA b (eraseA w l)) = none := by
    intro l
    refine ⟨?_, findA_eraseA_self b _⟩
    by_cases hwb : w = b
    · subst hwb
      exact findA_eraseA_self w _
    · rw [findA_eraseA_of_ne hwb]
      exact findA_eraseA_self w _
  by_cases hwu : g.white = some u
  · have hcon : g.concede u =
        .ok { g with result := some GameResult.WhiteResigns, status := GameStatus.Finished } := by
      unfold Game.concede
      rw [if_pos hwu]
    unfold process_command
    simp only [hu, hgident, hcon]
    have h1 : findA gid (updateA gid
        { g with result := some GameResult.WhiteResigns, status := GameStatus.Finished }
        st.games) = some
        { g with result := some GameResult.WhiteResigns, status := GameStatus.Finished } :=
      findA_updateA_of_found hgame
    by_cases hm : E.legalMovesCount g.board = 0
    · have hsgs := send_game_state_finished_mate E
        { g with result := some GameResult.WhiteResigns, status := GameStatus.Finished }
        { st with
          games := updateA gid
            { g with result := some GameResult.WhiteResigns, status := GameStatus.Finished }
            st.games,
          user_to_game := removeOptUser g.black (removeOptUser g.white st.user_to_game) }
        w b cw cb GameResult.WhiteResigns hw hb hcw hcb rfl hm
      simp only [hsgs]
      refine ⟨?_, by trivial, ?_, ?_, by trivial⟩
      · simpa [hm] using findA_updateA_of_found h1
      · simp only [removeOptUser, hw, hb]
        exact (hu2g st.user_to_game).1
      · simp only [removeOptUser, hw, hb]
        exact (hu2g st.user_to_game).2
    · have hsgs := send_game_state_finished E
        { g with result := some GameResult.WhiteResigns, status := GameStatus.Finished }
        { st with
          games := updateA gid
            { g with result := some GameResult.WhiteResigns, status := GameStatus.Finished }
            st.games,
          user_to_game := removeOptUser g.black (removeOptUser g.white st.user_to_game) }
        w b cw cb GameResult.WhiteResigns hw hb hcw hcb rfl hm
      simp only [hsgs]
      refine ⟨?_, by trivial, ?_, ?_, by trivial⟩
      · simpa [hm, hwu] using findA_updateA_of_found h1
      · simp only [removeOptUser, hw, hb]
        exact (hu2g st.user_to_game).1
      · simp only [removeOptUser, hw, hb]
        exact (hu2g st.user_to_game).2
  · have hbu : g.black = some u := by
      rcases hseat with rfl | rfl
      · exact absurd hw hwu
      · exact hb
    have hcon : g.concede u =
        .ok { g with result := some GameResult.BlackResigns, status := GameStatus.Finished } := by
      unfold Game.concede
      rw [if_neg hwu, if_pos hbu]
    unfold process_command
    simp only [hu, hgident, hcon]
    have h1 : findA gid (updateA gid
        { g with result := some GameResult.BlackResigns, status := GameStatus.Finished }
        st.games) = some
        { g with result := some GameResult.BlackResigns, status := GameStatus.Finished } :=
      findA_updateA_of_found hgame
    by_cases hm : E.legalMovesCount g.board = 0
    · have hsgs := send_game_state_finished_mate E
        { g with result := some GameResult.BlackResigns, status := GameStatus.Finished }
        { st with
          games := updateA gid
            { g with result := some GameResult.BlackResigns, status := GameStatus.Finished }
            st.games,
          user_to_game := removeOptUser g.black (removeOptUser g.white st.user_to_game) }
        w b cw cb GameResult.BlackResigns hw hb hcw hcb rfl hm
      simp only [hsgs]
      refine ⟨?_, by trivial, ?_, ?_, by trivial⟩
      · simpa [hm] using findA_updateA_of_found h1
      · simp only [removeOptUser, hw, hb]
        exact (hu2g st.user_to_game).1
      · simp only [removeOptUser, hw, hb]
        exact (hu2g st.user_to_game).2
    · have hsgs := send_game_state_finished E
        { g with result := some GameResult.BlackResigns, status := GameStatus.Finished }
        { st with
          games := updateA gid
            { g with result := some GameResult.BlackResigns, status := GameStatus.Finished }
            st.games,
          user_to_game := removeOptUser g.black (removeOptUser g.white st.user_to_game) }
        w b cw cb GameResult.BlackResigns hw hb hcw hcb rfl hm
      simp only [hsgs]
      refine ⟨?_, by trivial, ?_, ?_, by trivial⟩
      · simpa [hm, hwu] using findA_updateA_of_found h1
      · simp only [removeOptUser, hw, hb]
        exact (hu2g st.user_to_game).1
      · simp only [removeOptUser, hw, hb]
        exact (hu2g st.user_to_game).2

/-- Claim C4 amended, witness: alice (white) concedes from `stBase`, whose
board still has legal moves, so the stored result is the resignation. -/
theorem concede_amended_witness :
    findA (0 : Nat) (process_command foolsEngine Command.Concede (1 : Addr) stBase).1.games =
      some { gameBase with
        result := some (if foolsEngine.legalMovesCount gameBase.board = 0 then
                          (if gameBase.current_turn = Color.White then GameResult.BlackCheckmates
                           else GameResult.WhiteCheckmates)
                        else if gameBase.white = some "alice" then GameResult.WhiteResigns
                        else GameResult.BlackResigns),
        status := GameStatus.Finished } ∧
    (process_command foolsEngine Command.Concede (1 : Addr) stBase).1.finished_games =
      stBase.finished_games ∧
    findA "alice" (process_command foolsEngine Command.Concede (1 : Addr) stBase).1.user_to_game
      = none ∧
    findA "bob" (process_command foolsEngine Command.Concede (1 : Addr) stBase).1.user_to_game
      = none ∧
    (process_command foolsEngine Command.Concede (1 : Addr) stBase).2.2 = PStatus.ok :=
  concede_amended foolsEngine 1 stBase "alice" "alice" "bob" 0 gameBase 10 11
    rfl rfl rfl rfl rfl (Or.inl rfl) rfl rfl

/-- Server state for a second login: alice is already logged in on address
1 with channel 5; a new anonymous connection on address 2 has channel 6. -/
def stTwoLogin : ServerState Nat where
  user_connections := [("alice", 5)]
  anon_user_connections := [(2, 6)]
  addr_to_user := [(1, "alice")]
  games := []
  finished_games := []
  user_to_game := []
  user_file := "alice\n"
  last_game_id := 0

/-- Claim C6 counterexample: when a second connection logs in as "alice",
the only message sent is the greeting to the new channel; the prior
channel (5) never receives `Log("You have been superseded by a new
login")` — that message does not exist in the code. -/
theorem login_supersede_no_message_counterexample :
    (process_command foolsEngine (Command.LogIn "alice") (2 : Addr) stTwoLogin).2.1 =
      [((6 : Chan), Message.Log "Authenticated successfully. Welcome back, alice.")] ∧
    ((5 : Chan), Message.Log "You have been superseded by a new login") ∉
      (process_command foolsEngine (Command.LogIn "alice") (2 : Addr) stTwoLogin).2.1 :=
  ⟨rfl, by decide⟩

/-- Claim C6 amended: a second successful `LogIn(n)` unconditionally
overwrites `users[n]` with the channel of the new connection, so at most one
live connection is bound to `n` afterwards; the prior channel is dropped
silently — the only message sent is the greeting to the new channel, and
no supersede notification is sent to the prior connection. -/
theorem login_supersede_amended {Board Move : Type} (E : Engine Board Move)
    (n : String) (addr : Addr) (st : ServerState Board) (chNew : Chan)
    (hauth : authenticate n st.user_file = true)
    (hanon : findA addr st.anon_user_connections = some chNew) :
    findA n (process_command E (Command.LogIn n) addr st).1.user_connections = some chNew ∧
    (process_command E (Command.LogIn n) addr st).2.1 =
      [(chNew, Message.Log ("Authenticated successfully. Welcome back, " ++ n ++ "."))] ∧
    findA addr (process_command E (Command.LogIn n) addr st).1.addr_to_user = some n ∧
    (process_command E (Command.LogIn n) addr st).2.2 = PStatus.ok := by
  unfold process_command
  simp only [hauth, if_true, hanon]
  exact ⟨findA_insertA_self n chNew _, by trivial, findA_insertA_self addr n _, by trivial⟩

/-- Claim C6 amended, witness: a second login as "alice" from address 2. -/
theorem login_supersede_amended_witness :
    findA "alice"
        (process_command foolsEngine (Command.LogIn "alice") (2 : Addr) stTwoLogin).1.user_connections
      = some (6 : Chan) ∧
    (process_command foolsEngine (Command.LogIn "alice") (2 : Addr) stTwoLogin).2.1 =
      [((6 : Chan), Message.Log ("Authenticated successfully. Welcome back, " ++ "alice" ++ "."))] ∧
    findA (2 : Addr)
        (process_command foolsEngine (Command.LogIn "alice") (2 : Addr) stTwoLogin).1.addr_to_user
      = some "alice" ∧
    (process_command foolsEngine (Command.LogIn "alice") (2 : Addr) stTwoLogin).2.2 =
      PStatus.ok :=
  login_supersede_amended foolsEngine "alice" 2 stTwoLogin 6 rfl rfl

/-- One successful read of a complete frame whose length is within the
limit: `listen_to_messages` consumes the 4-byte header and exactly the
announced number of payload bytes, decodes the payload, and on decode
failure continues with the remaining stream. -/
theorem listen_frame_step (decode : List Nat → Option Message) (a b c d : Nat)
    (payload rest : List Nat)
    (hlim : be32 [a, b, c, d] ≤ FRAME_LIMIT)
    (hpl : payload.length = be32 [a, b, c, d]) :
    listen_to_messages decode ([a, b, c, d] ++ (payload ++ rest)) =
      match decode payload with
      | some m => .msg m rest
      | none => listen_to_messages decode rest := by
  rw [listen_to_messages]
  have hlen : ¬ ([a, b, c, d] ++ (payload ++ rest)).length < 4 := by simp
  rw [dif_neg hlen]
  have hbe : be32 ([a, b, c, d] ++ (payload ++ rest)) = be32 [a, b, c, d] := rfl
  rw [hbe, if_neg (not_lt.mpr hlim)]
  have hdrop : ([a, b, c, d] ++ (payload ++ rest)).drop 4 = payload ++ rest := rfl
  rw [hdrop]
  have hnshort : ¬ (payload ++ rest).length < be32 [a, b, c, d] := by
    rw [← hpl]
    simp
  rw [dif_neg hnshort, List.take_left' hpl, List.drop_left' hpl]

/-- Claim C8: a frame whose announced length exceeds 10 MiB is rejected
with an error that does not depend on anything past the 4-byte header (no
payload byte is read), and a frame at or below the limit has exactly its
announced number of payload bytes read and decoded, with the rest of the
stream untouched. -/
theorem frame_limit_enforced (decode : List Nat → Option Message)
    (hdr : List Nat) (h4 : hdr.length = 4) :
    (FRAME_LIMIT < be32 hdr → ∀ tail : List Nat,
       listen_to_messages decode (hdr ++ tail) = .tooLarge (be32 hdr)) ∧
    (be32 hdr ≤ FRAME_LIMIT → ∀ payload rest : List Nat, payload.length = be32 hdr →
       listen_to_messages decode (hdr ++ (payload ++ rest)) =
         match decode payload with
         | some m => .msg m rest
         | none => listen_to_messages decode rest) := by
  obtain ⟨a, b, c, d, hnil⟩ : ∃ a b c d, hdr = [a, b, c, d] := by
    match hdr, h4 with
    | [a, b, c, d], _ => exact ⟨a, b, c, d, rfl⟩
  subst hnil
  constructor
  · intro hlim tail
    rw [listen_to_messages]
    have hlen : ¬ ([a, b, c, d] ++ tail).length < 4 := by simp
    rw [dif_neg hlen]
    have hbe : be32 ([a, b, c, d] ++ tail) = be32 [a, b, c, d] := rfl
    rw [hbe, if_pos hlim]
  · intro hlim payload rest hpl
    exact listen_frame_step decode a b c d payload rest hlim hpl

/-- A concrete decoder for witnesses: only the payload `[42]` decodes. -/
def dec0 : List Nat → Option Message :=
  fun l => if l = [42] then some (.Log "hi") else none

/-- Claim C8 witness: a frame announcing 2^24 bytes is rejected as too
large without looking at the stream past the header, and a 1-byte frame
within the limit is read and decoded exactly. -/
theorem frame_limit_enforced_witness :
    listen_to_messages dec0 ([1, 0, 0, 0] ++ [9, 9]) = .tooLarge 16777216 ∧
    listen_to_messages dec0 ([0, 0, 0, 1] ++ ([42] ++ [])) = .msg (.Log "hi") [] := by
  constructor
  · exact (frame_limit_enforced dec0 [1, 0, 0, 0] rfl).1 (by decide) [9, 9]
  · have h := (frame_limit_enforced dec0 [0, 0, 0, 1] rfl).2 (by decide) [42] [] rfl
    rw [h]
    rfl

/-- A concrete decoder under which the payload `[7]` fails to decode and
everything else decodes. -/
def dec9 : List Nat → Option Message :=
  fun l => if l = [7] then none else some (.Log "ok")

/-- Claim C9 counterexample: the stream carries two frames; the first
first frame payload `[7]` fails to decode.  The claim requires the read
operation to return an error so the reader loop ends the connection, but
`listen_to_messages` skips the bad frame and returns the decoded second
frame: the decode failure is exactly "silently skipped in favor of reading
the next frame" (only a log line is emitted). -/
theorem decode_failure_not_fatal_counterexample :
    listen_to_messages dec9 [0, 0, 0, 1, 7, 0, 0, 0, 1, 8] = .msg (.Log "ok") [] ∧
    dec9 [7] = none := by
  refine ⟨?_, rfl⟩
  have h1 : listen_to_messages dec9 ([0, 0, 0, 1] ++ ([7] ++ [0, 0, 0, 1, 8])) =
      listen_to_messages dec9 [0, 0, 0, 1, 8] := by
    rw [listen_frame_step dec9 0 0 0 1 [7] [0, 0, 0, 1, 8] (by decide) rfl]
    rfl
  have h2 : listen_to_messages dec9 ([0, 0, 0, 1] ++ ([8] ++ [])) =
      .msg (.Log "ok") [] := by
    rw [listen_frame_step dec9 0 0 0 1 [8] [] (by decide) rfl]
    rfl
  exact h1.trans h2

/-- Claim C9 amended: when the payload of a frame fails to decode, the failure
is logged and the frame is skipped — `listen_to_messages` continues with
the remaining stream as if the bad frame had not been there, rather than
returning an error that would end the connection. -/
theorem decode_failure_skips_frame (decode : List Nat → Option Message)
    (a b c d : Nat) (payload rest : List Nat)
    (hlim : be32 [a, b, c, d] ≤ FRAME_LIMIT)
    (hpl : payload.length = be32 [a, b, c, d])
    (hdec : decode payload = none) :
    listen_to_messages decode ([a, b, c, d] ++ (payload ++ rest)) =
      listen_to_messages decode rest := by
  rw [listen_frame_step decode a b c d payload rest hlim hpl, hdec]

/-- Claim C9 amended, witness: the bad frame `[0,0,0,1,7]` is skipped. -/
theorem decode_failure_skips_frame_witness :
    listen_to_messages dec9 ([0, 0, 0, 1] ++ ([7] ++ [0, 0, 0, 2, 8, 8])) =
      listen_to_messages dec9 [0, 0, 0, 2, 8, 8] :=
  decode_failure_skips_frame dec9 0 0 0 1 [7] [0, 0, 0, 2, 8, 8] (by decide) rfl rfl

/-! # Lemmas about the line structure of the user file -/

theorem splitNL_ne_nil (s : List Char) : splitNL s ≠ [] := by
  induction s with
  | nil => simp [splitNL]
  | cons c cs _ =>
    by_cases hc : c = '\n'
    · simp [splitNL, hc]
    · simp only [splitNL, if_neg hc]
      cases h : splitNL cs <;> simp

theorem splitNL_not_mem_newline (s : List Char) : ∀ l ∈ splitNL s, '\n' ∉ l := by
  induction s with
  | nil =>
    intro l hl
    simp [splitNL] at hl
    simp [hl]
  | cons c cs ih =>
    intro l hl
    by_cases hc : c = '\n'
    · simp only [splitNL, if_pos hc] at hl
      rcases List.mem_cons.mp hl with rfl | hl2
      · simp
      · exact ih l hl2
    · simp only [splitNL, if_neg hc] at hl
      cases hsp : splitNL cs with
      | nil => exact absurd hsp (splitNL_ne_nil cs)
      | cons p ps =>
        rw [hsp] at hl
        rcases List.mem_cons.mp hl with rfl | hl2
        · intro hmem
          rcases List.mem_cons.mp hmem with he | hp
          · exact hc he.symm
          · exact ih p (by rw [hsp]; exact List.mem_cons_self p ps) hp
        · exact ih l (by rw [hsp]; exact List.mem_cons_of_mem p hl2)

theorem splitNL_cons (c : Char) (cs : List Char) :
    splitNL (c :: cs) =
      if c = '\n' then [] :: splitNL cs
      else
        match splitNL cs with
        | [] => [[c]]
        | l :: ls => (c :: l) :: ls := rfl

theorem two_le_splitNL_length {s : List Char} (h : s.getLast? = some '\n') :
    2 ≤ (splitNL s).length := by
  induction s with
  | nil => simp at h
  | cons c cs ih =>
    cases cs with
    | nil =>
      simp at h
      simp [splitNL, h]
    | cons c2 cs2 =>
      rw [List.getLast?_cons_cons] at h
      have ih2 := ih h
      rw [splitNL_cons]
      by_cases hc : c = '\n'
      · rw [if_pos hc]
        simp only [List.length_cons]
        omega
      · rw [if_neg hc]
        cases hsp : splitNL (c2 :: cs2) with
        | nil => exact absurd hsp (splitNL_ne_nil _)
        | cons p ps =>
          rw [hsp] at ih2
          simp only [List.length_cons] at ih2 ⊢
          omega

theorem splitNL_getLast_of_last_nl {s : List Char} (h : s.getLast? = some '\n') :
    (splitNL s).getLast? = some [] := by
  induction s with
  | nil => simp at h
  | cons c cs ih =>
    cases cs with
    | nil =>
      simp at h
      simp [splitNL, h]
    | cons c2 cs2 =>
      rw [List.getLast?_cons_cons] at h
      have ih2 := ih h
      rw [splitNL_cons]
      by_cases hc : c = '\n'
      · rw [if_pos hc]
        cases hsp : splitNL (c2 :: cs2) with
        | nil => exact absurd hsp (splitNL_ne_nil _)
        | cons p ps =>
          rw [hsp] at ih2
          rw [List.getLast?_cons_cons]
          exact ih2
      · rw [if_neg hc]
        cases hsp : splitNL (c2 :: cs2) with
        | nil => exact absurd hsp (splitNL_ne_nil _)
        | cons p ps =>
          rw [hsp] at ih2
          cases ps with
          | nil =>
            have hlen := two_le_splitNL_length h
            rw [hsp] at hlen
            simp at hlen
          | cons q qs =>
            show ((c :: p) :: q :: qs).getLast? = some []
            rw [List.getLast?_cons_cons]
            rw [List.getLast?_cons_cons] at ih2
            exact ih2

theorem splitNL_append {xs : List Char} (hxs : xs = [] ∨ xs.getLast? = some '\n')
    (ys : List Char) :
    splitNL (xs ++ ys) = (splitNL xs).dropLast ++ splitNL ys := by
  induction xs with
  | nil => simp [splitNL]
  | cons c cs ih =>
    rcases hxs with h | h
    · simp at h
    cases cs with
    | nil =>
      simp at h
      subst h
      rw [List.cons_append, List.nil_append, splitNL_cons, if_pos rfl]
      simp [splitNL]
    | cons c2 cs2 =>
      rw [List.getLast?_cons_cons] at h
      have ih2 := ih (Or.inr h)
      rw [List.cons_append, splitNL_cons, splitNL_cons]
      by_cases hc : c = '\n'
      · rw [if_pos hc, if_pos hc, ih2,
            List.dropLast_cons_of_ne_nil (splitNL_ne_nil _)]
        simp
      · rw [if_neg hc, if_neg hc, ih2]
        cases hsp : splitNL (c2 :: cs2) with
        | nil => exact absurd hsp (splitNL_ne_nil _)
        | cons p ps =>
          cases ps with
          | nil =>
            have hlen := two_le_splitNL_length h
            rw [hsp] at hlen
            simp at hlen
          | cons q qs => rfl

theorem splitNL_no_newline_append {u : List Char} (h : '\n' ∉ u) :
    splitNL (u ++ ['\n']) = [u, []] := by
  induction u with
  | nil => simp [splitNL]
  | cons c cs ih =>
    have hc : ¬ c = '\n' := by
      intro he
      subst he
      exact h (List.mem_cons_self _ _)
    have h2 : '\n' ∉ cs := fun hm => h (List.mem_cons_of_mem _ hm)
    rw [List.cons_append, splitNL_cons, if_neg hc, ih h2]

theorem rustLines_append {xs : List Char} (hxs : xs = [] ∨ xs.getLast? = some '\n')
    (ys : List Char) :
    rustLines (xs ++ ys) = rustLines xs ++ rustLines ys := by
  rcases hxs with rfl | h
  · simp [rustLines, splitNL]
  · have hBne : splitNL ys ≠ [] := splitNL_ne_nil ys
    unfold rustLines
    dsimp only
    rw [splitNL_append (Or.inr h) ys, List.dropLast_append_of_ne_nil _ hBne,
        List.getLast?_append_of_ne_nil _ hBne, splitNL_getLast_of_last_nl h]
    simp [List.map_append, List.append_assoc]

theorem rustLines_single (u : List Char) (h : '\n' ∉ u) :
    rustLines (u ++ ['\n']) = [stripCR u] := by
  unfold rustLines
  dsimp only
  rw [splitNL_no_newline_append h]
  simp

theorem rustLines_no_newline (s : List Char) : ∀ l ∈ rustLines s, '\n' ∉ l := by
  intro l hl
  unfold rustLines at hl
  dsimp only at hl
  rcases List.mem_append.mp hl with hl2 | hl2
  · rcases List.mem_map.mp hl2 with ⟨l0, hl0, rfl⟩
    have hl0m : l0 ∈ splitNL s := (List.dropLast_sublist (splitNL s)).subset hl0
    have h0 := splitNL_not_mem_newline s l0 hl0m
    unfold stripCR
    by_cases hcr : l0.getLast? = some '\r'
    · rw [if_pos hcr]
      intro hm
      exact h0 ((List.dropLast_sublist l0).subset hm)
    · rw [if_neg hcr]
      exact h0
  · cases hgl : (splitNL s).getLast? with
    | none => rw [hgl] at hl2; simp at hl2
    | some p =>
      rw [hgl] at hl2
      cases p with
      | nil => simp at hl2
      | cons x ps =>
        simp at hl2
        subst hl2
        exact splitNL_not_mem_newline s _ (List.mem_of_getLast?_eq_some hgl)

theorem authenticate_eq_false_of_newline (u f : String) (hNL : '\n' ∈ u.data) :
    authenticate u f = false := by
  unfold authenticate
  rw [List.any_eq_false]
  intro l hl
  simp only [decide_eq_true_eq]
  intro he
  exact rustLines_no_newline f.data l hl (he ▸ hNL)

/-- Claim C10 counterexample: after `register("")` on an empty file,
`exists("")` returns `true` — the appended bare `"\n"` produces an empty
line that matches the empty username — while the claim says
register-then-exists yields true exactly when the username is non-empty
(and newline-free), hence false here. -/
theorem register_exists_empty_counterexample :
    authenticate "" (register "" "") = true ∧ ("" : String).data = [] :=
  ⟨rfl, rfl⟩

/-- Claim C10 amended: `register(u)` appends exactly `u ++ "\n"`;
`exists(u)` is a line-membership test (with Rust `lines` semantics); and
for a file that is empty or LF-terminated, `register(u)` followed by
`exists(u)` yields true exactly when `u` contains no newline and does not
end in a carriage return — or `u` already matched a line of the file.  In
particular the empty username yields true, and any `u` containing an
embedded newline yields false. -/
theorem register_then_exists_amended (u f : String)
    (hf : f.data = [] ∨ f.data.getLast? = some '\n') :
    (authenticate u (register u f) = true ↔
      (('\n' ∉ u.data ∧ u.data.getLast? ≠ some '\r') ∨ authenticate u f = true)) ∧
    ('\n' ∈ u.data → authenticate u (register u f) = false) ∧
    (register u f).data = f.data ++ (u.data ++ ['\n']) := by
  have hdata : (register u f).data = f.data ++ (u.data ++ ['\n']) := by
    unfold register
    rw [String.data_append, String.data_append]
    simp [List.append_assoc]
  refine ⟨?_, fun hNL => authenticate_eq_false_of_newline u (register u f) hNL, hdata⟩
  by_cases hNL : '\n' ∈ u.data
  · rw [authenticate_eq_false_of_newline u (register u f) hNL,
        authenticate_eq_false_of_newline u f hNL]
    simp [hNL]
  · have hsplit : rustLines (register u f).data =
        rustLines f.data ++ rustLines (u.data ++ ['\n']) := by
      rw [hdata]
      exact rustLines_append hf (u.data ++ ['\n'])
    unfold authenticate
    rw [hsplit, List.any_append, rustLines_single u.data hNL]
    by_cases hCR : u.data.getLast? = some '\r'
    · have hne : ¬ (stripCR u.data = u.data) := by
        unfold stripCR
        rw [if_pos hCR]
        intro he
        have hlen := congrArg List.length he
        have hnn : u.data ≠ [] := by
          intro h0
          rw [h0] at hCR
          simp at hCR
        have hpos : 0 < u.data.length := List.length_pos.mpr hnn
        rw [List.length_dropLast] at hlen
        omega
      simp [hNL, hCR, hne]
    · have heq : stripCR u.data = u.data := by
        unfold stripCR
        rw [if_neg hCR]
      simp [hNL, hCR, heq]

/-- Claim C10 amended, witness: registering "alice" in an empty file makes
`exists("alice")` true. -/
theorem register_then_exists_amended_witness :
    (authenticate "alice" (register "alice" "") = true ↔
      (('\n' ∉ ("alice" : String).data ∧
        ("alice" : String).data.getLast? ≠ some '\r') ∨
       authenticate "alice" "" = true)) ∧
    ('\n' ∈ ("alice" : String).data →
      authenticate "alice" (register "alice" "") = false) ∧
    (register "alice" "").data = ("" : String).data ++ (("alice" : String).data ++ ['\n']) :=
  register_then_exists_amended "alice" "" (Or.inl rfl)

end ChessRS
